import Mathlib

/-
Verification of the Hyperledger_HealthInsurance chaincode.

The repository carries two variants of the same Go contract: the buildable
chaincode (embedded below inside namespace HealthIns) and a stale draft of
main.go whose SubmitClaim assigns the claims-collection write error to err
without checking it; that draft variant is embedded as Draft.SubmitClaim.

Modelling choices, faithful to the Hyperledger Fabric substrate:
- Writes issued during one invocation are buffered and committed together only
  when the chaincode returns success; when it returns an error the write set is
  discarded.  Each operation therefore returns the pre-call ledger on every
  error path, while the event trace still records every stub call in program
  order, including attempted writes.
- Stub failures (GetState, PutState, PutPrivateData, GetPrivateData,
  GetTxTimestamp) and identity failures are injected through Boolean fault
  flags carried by the invocation context.
- JSON marshalling of the fixed-shape records in this contract cannot fail in
  Go, so the marshal error branches are elided.
- Timestamps are modelled as Nat seconds taken from the transaction context;
  the string formatting applied to them in Go is elided, as no behaviour
  depends on it.
- Go int arithmetic is modelled by Int; the coverage guard and the stored
  update compute the same expression in the source, so wrap-around at the
  word size cannot separate the guarded value from the stored value.
-/

namespace HealthIns

/-- The public insurance record, as the Go struct Policy.  Note that the Go
struct carries the MedicalCondition field (json tag medicalConditions) and
CreatePolicy fills it in, so the public record embeds the sensitive text. -/
structure Policy where
  objectType : String
  policyID : String
  sumAssured : Int
  personName : String
  dateOfBirth : String
  gender : String
  startDate : String
  endDate : String
  coPay : Int
  coverages : String
  benefits : String
  exclusions : String
  claimedTotal : Int
  medicalCondition : String
  deriving DecidableEq

/-- The claim-details record SubmitClaim writes to the claims-collection
(a map of strings in Go; the numeric fields keep their numeric values here,
standing for their printed forms). -/
structure ClaimDetails where
  policyID : String
  claimAmount : Int
  claimReason : String
  hospitalName : String
  dateOfAdmission : String
  dateOfDischarge : String
  treatmentDate : String
  documents : String
  timestamp : Nat
  deriving DecidableEq

/-- The audit record GetMedicalConditions writes to the
access-log-collection. -/
structure LogEntry where
  userID : String
  role : String
  policyID : String
  timestamp : Nat
  accessGranted : String
  deriving DecidableEq

/-- The audit record logAccessEvent writes to the access-logs collection on
the patient ownership path. -/
structure AccessEvent where
  policyID : String
  action : String
  userID : String
  timestamp : Nat
  deriving DecidableEq

/-- Errors returned by the contract, one constructor per fmt.Errorf site that
the model can reach.  claimExceedsSumAssured is the ClaimExceedsCoverageError
of the design taxonomy; roleAttrNotFound its AttributeMissingError;
unauthorizedRole and notPolicyOwner its UnauthorizedError;
storeAccessLogFailed the PersistenceError of a failed audit write. -/
inductive Err where
  | worldStateReadFailed
  | policyNotFound
  | claimExceedsSumAssured
  | txTimestampFailed
  | storeClaimFailed
  | storePolicyFailed
  | storeSensitiveFailed
  | roleAttrFailed
  | roleAttrNotFound
  | unauthorizedRole
  | clientIDFailed
  | notPolicyOwner
  | logAccessEventFailed
  | storeAccessLogFailed
  | readPrivateFailed
  | noSensitiveData
  deriving DecidableEq

/-- One stub call, recorded in program order.  Put events carry whether the
stub call succeeded. -/
inductive Ev where
  | getState (key : String)
  | putState (key : String) (ok : Bool)
  | putPriv (coll : String) (key : String) (ok : Bool)
  | getPriv (coll : String) (key : String)
  | getTxTime (ok : Bool)
  deriving DecidableEq

/-- The ledger: the public namespace plus the three private collections the
contract touches. -/
structure Ledger where
  publicNS : String → Option Policy
  claimsNS : String → Option ClaimDetails
  medicalNS : String → Option String
  accessLogNS : String → Option LogEntry
  accessLogsNS : String → Option AccessEvent

def emptyLedger : Ledger :=
  { publicNS := fun _ => none
    claimsNS := fun _ => none
    medicalNS := fun _ => none
    accessLogNS := fun _ => none
    accessLogsNS := fun _ => none }

def putPolicy (s : Ledger) (k : String) (p : Policy) : Ledger :=
  { s with publicNS := fun k2 => if k2 = k then some p else s.publicNS k2 }

def putClaim (s : Ledger) (k : String) (c : ClaimDetails) : Ledger :=
  { s with claimsNS := fun k2 => if k2 = k then some c else s.claimsNS k2 }

def putMedical (s : Ledger) (k : String) (m : String) : Ledger :=
  { s with medicalNS := fun k2 => if k2 = k then some m else s.medicalNS k2 }

def putAccessLog (s : Ledger) (k : String) (e : LogEntry) : Ledger :=
  { s with accessLogNS := fun k2 => if k2 = k then some e else s.accessLogNS k2 }

def putAccessEvent (s : Ledger) (k : String) (e : AccessEvent) : Ledger :=
  { s with accessLogsNS := fun k2 => if k2 = k then some e else s.accessLogsNS k2 }

/-- Fault flags for the stub and identity calls of one invocation. -/
structure Faults where
  getStateFail : Bool
  putStateFail : Bool
  putClaimsFail : Bool
  putMedicalFail : Bool
  putAccessLogFail : Bool
  putAccessLogsFail : Bool
  getMedicalFail : Bool
  txTimeFail : Bool
  deriving DecidableEq

/-- All stub calls succeed. -/
def Faults.clear : Faults :=
  { getStateFail := false
    putStateFail := false
    putClaimsFail := false
    putMedicalFail := false
    putAccessLogFail := false
    putAccessLogsFail := false
    getMedicalFail := false
    txTimeFail := false }

/-- The client identity delivered by the external identity provider:
GetID and GetAttributeValue with their failure modes (roleAttr none models
the found = false return). -/
structure ClientId where
  id : String
  roleAttr : Option String
  roleAttrErr : Bool
  idErr : Bool
  deriving DecidableEq

/-- The transaction context of one invocation: identity, fault schedule and
the transaction timestamp in seconds. -/
structure Ctx where
  ident : ClientId
  faults : Faults
  txTime : Nat
  deriving DecidableEq

/-- Embeds GetPolicy: GetState on the public namespace, policyNotFound when
the key is absent.  Reads do not change the ledger, so only the result and
the trace are returned. -/
def GetPolicy (ctx : Ctx) (s : Ledger) (policyID : String) :
    Except Err Policy × List Ev :=
  if ctx.faults.getStateFail then
    (.error .worldStateReadFailed, [.getState policyID])
  else
    match s.publicNS policyID with
    | none => (.error .policyNotFound, [.getState policyID])
    | some p => (.ok p, [.getState policyID])

/-- Embeds CreatePolicy: build the Policy with claimedTotal 0 and the
MedicalCondition field set, PutState it to the public namespace, then
PutPrivateData the medicalConditions text to the medical-conditions
collection. -/
def CreatePolicy (ctx : Ctx) (s : Ledger) (policyID : String) (sumAssured : Int)
    (personName dateOfBirth gender startDate endDate : String) (coPay : Int)
    (coverages benefits exclusions medicalConditions : String) :
    Except Err Unit × Ledger × List Ev :=
  let policy : Policy :=
    { objectType := "policy"
      policyID := policyID
      sumAssured := sumAssured
      personName := personName
      dateOfBirth := dateOfBirth
      gender := gender
      startDate := startDate
      endDate := endDate
      coPay := coPay
      coverages := coverages
      benefits := benefits
      exclusions := exclusions
      claimedTotal := 0
      medicalCondition := medicalConditions }
  if ctx.faults.putStateFail then
    (.error .storePolicyFailed, s, [.putState policyID false])
  else if ctx.faults.putMedicalFail then
    (.error .storeSensitiveFailed, s,
      [.putState policyID true, .putPriv "medical-conditions-collection" policyID false])
  else
    (.ok (), putMedical (putPolicy s policyID policy) policyID medicalConditions,
      [.putState policyID true, .putPriv "medical-conditions-collection" policyID true])

/-- Embeds SubmitClaim of the buildable chaincode: load the policy, reject
when claimedTotal + claimAmount > sumAssured, otherwise write the claim
details to the claims-collection (checking the write error) and PutState the
policy with the new total. -/
def SubmitClaim (ctx : Ctx) (s : Ledger) (policyID : String) (claimAmount : Int)
    (claimReason hospitalName dateOfAdmission dateOfDischarge treatmentDate documents : String) :
    Except Err Unit × Ledger × List Ev :=
  match GetPolicy ctx s policyID with
  | (.error e, tr) => (.error e, s, tr)
  | (.ok policy, tr) =>
    if policy.claimedTotal + claimAmount > policy.sumAssured then
      (.error .claimExceedsSumAssured, s, tr)
    else
      let updated := { policy with claimedTotal := policy.claimedTotal + claimAmount }
      if ctx.faults.txTimeFail then
        (.error .txTimestampFailed, s, tr ++ [.getTxTime false])
      else
        let details : ClaimDetails :=
          { policyID := policyID
            claimAmount := claimAmount
            claimReason := claimReason
            hospitalName := hospitalName
            dateOfAdmission := dateOfAdmission
            dateOfDischarge := dateOfDischarge
            treatmentDate := treatmentDate
            documents := documents
            timestamp := ctx.txTime }
        if ctx.faults.putClaimsFail then
          (.error .storeClaimFailed, s,
            tr ++ [.getTxTime true, .putPriv "claims-collection" policyID false])
        else if ctx.faults.putStateFail then
          (.error .storePolicyFailed, s,
            tr ++ [.getTxTime true, .putPriv "claims-collection" policyID true,
                   .putState policyID false])
        else
          (.ok (), putPolicy (putClaim s policyID details) policyID updated,
            tr ++ [.getTxTime true, .putPriv "claims-collection" policyID true,
                   .putState policyID true])

/-- Embeds UpdatePolicy: load the policy, overwrite every public field except
claimedTotal (ObjectType, PolicyID and MedicalCondition also stay), PutState
the result. -/
def UpdatePolicy (ctx : Ctx) (s : Ledger) (policyID : String) (sumAssured : Int)
    (personName dateOfBirth gender startDate endDate : String) (coPay : Int)
    (coverages benefits exclusions : String) :
    Except Err Unit × Ledger × List Ev :=
  match GetPolicy ctx s policyID with
  | (.error e, tr) => (.error e, s, tr)
  | (.ok policy, tr) =>
    let updated :=
      { policy with
        sumAssured := sumAssured
        personName := personName
        dateOfBirth := dateOfBirth
        gender := gender
        startDate := startDate
        endDate := endDate
        coPay := coPay
        coverages := coverages
        benefits := benefits
        exclusions := exclusions }
    if ctx.faults.putStateFail then
      (.error .storePolicyFailed, s, tr ++ [.putState policyID false])
    else
      (.ok (), putPolicy s policyID updated, tr ++ [.putState policyID true])

/-- Embeds logAccessEvent: GetTxTimestamp, then PutPrivateData of the
{policyID, action, userID, timestamp} record to the access-logs collection. -/
def logAccessEvent (ctx : Ctx) (s : Ledger) (policyID action userID : String) :
    Except Err Unit × Ledger × List Ev :=
  if ctx.faults.txTimeFail then
    (.error .txTimestampFailed, s, [.getTxTime false])
  else
    let entry : AccessEvent :=
      { policyID := policyID, action := action, userID := userID, timestamp := ctx.txTime }
    if ctx.faults.putAccessLogsFail then
      (.error .storeAccessLogFailed, s, [.getTxTime true, .putPriv "access-logs" policyID false])
    else
      (.ok (), putAccessEvent s policyID entry,
        [.getTxTime true, .putPriv "access-logs" policyID true])

/-- The common continuation of GetMedicalConditions after authorization
(source lines 271 to 313 of the chaincode): GetTxTimestamp, write the
accessGranted log entry to the access-log-collection, then and only then
GetPrivateData from the medical-conditions-collection and return the text.
s0 is the ledger at the start of the invocation (returned on error paths,
since a failed invocation commits nothing); sCur carries the writes buffered
so far; tr the trace so far. -/
def discloseTail (ctx : Ctx) (s0 sCur : Ledger) (policyID role clientID : String)
    (tr : List Ev) : Except Err String × Ledger × List Ev :=
  if ctx.faults.txTimeFail then
    (.error .txTimestampFailed, s0, tr ++ [.getTxTime false])
  else
    let entry : LogEntry :=
      { userID := clientID, role := role, policyID := policyID,
        timestamp := ctx.txTime, accessGranted := "true" }
    if ctx.faults.putAccessLogFail then
      (.error .storeAccessLogFailed, s0,
        tr ++ [.getTxTime true, .putPriv "access-log-collection" policyID false])
    else
      let s2 := putAccessLog sCur policyID entry
      if ctx.faults.getMedicalFail then
        (.error .readPrivateFailed, s0,
          tr ++ [.getTxTime true, .putPriv "access-log-collection" policyID true,
                 .getPriv "medical-conditions-collection" policyID])
      else
        match s2.medicalNS policyID with
        | none =>
          (.error .noSensitiveData, s0,
            tr ++ [.getTxTime true, .putPriv "access-log-collection" policyID true,
                   .getPriv "medical-conditions-collection" policyID])
        | some txt =>
          (.ok txt, s2,
            tr ++ [.getTxTime true, .putPriv "access-log-collection" policyID true,
                   .getPriv "medical-conditions-collection" policyID])

/-- Embeds GetMedicalConditions of the buildable chaincode: GetAttributeValue
for role (error, then found check), reject roles other than doctor and
patient, GetID, then for a patient load the policy, check ownership against
the caller id and logAccessEvent; finally the common disclosure tail.  The
patient branch of the source calls GetID a second time with the same
outcome, so the single idErr check covers both calls. -/
def GetMedicalConditions (ctx : Ctx) (s : Ledger) (policyID : String) :
    Except Err String × Ledger × List Ev :=
  if ctx.ident.roleAttrErr then
    (.error .roleAttrFailed, s, [])
  else
    match ctx.ident.roleAttr with
    | none => (.error .roleAttrNotFound, s, [])
    | some role =>
      if role ≠ "doctor" ∧ role ≠ "patient" then
        (.error .unauthorizedRole, s, [])
      else if ctx.ident.idErr then
        (.error .clientIDFailed, s, [])
      else
        let clientID := ctx.ident.id
        if role = "patient" then
          match GetPolicy ctx s policyID with
          | (.error e, tr) => (.error e, s, tr)
          | (.ok policy, tr) =>
            if policy.personName ≠ clientID then
              (.error .notPolicyOwner, s, tr)
            else
              match logAccessEvent ctx s policyID "accessed medical conditions" clientID with
              | (.error _, _, tr2) => (.error .logAccessEventFailed, s, tr ++ tr2)
              | (.ok _, s1, tr2) =>
                discloseTail ctx s s1 policyID role clientID (tr ++ tr2)
        else
          discloseTail ctx s s policyID role clientID []

end HealthIns

namespace Draft

open HealthIns

/-- Embeds SubmitClaim of the stale main.go draft.  It differs from the
buildable chaincode in two ways: GetTxTimestamp is used without an error
check, and the error of the PutPrivateData call on the claims-collection is
assigned to err but never tested (the next json.Marshal statement rebinds
err), so execution falls through to the policy PutState even when the claim
record write failed. -/
def SubmitClaim (ctx : Ctx) (s : Ledger) (policyID : String) (claimAmount : Int)
    (claimReason hospitalName dateOfAdmission dateOfDischarge treatmentDate documents : String) :
    Except Err Unit × Ledger × List Ev :=
  match GetPolicy ctx s policyID with
  | (.error e, tr) => (.error e, s, tr)
  | (.ok policy, tr) =>
    if policy.claimedTotal + claimAmount > policy.sumAssured then
      (.error .claimExceedsSumAssured, s, tr)
    else
      let updated := { policy with claimedTotal := policy.claimedTotal + claimAmount }
      let details : ClaimDetails :=
        { policyID := policyID
          claimAmount := claimAmount
          claimReason := claimReason
          hospitalName := hospitalName
          dateOfAdmission := dateOfAdmission
          dateOfDischarge := dateOfDischarge
          treatmentDate := treatmentDate
          documents := documents
          timestamp := ctx.txTime }
      let s1 := if ctx.faults.putClaimsFail then s else putClaim s policyID details
      let ev1 := Ev.putPriv "claims-collection" policyID (!ctx.faults.putClaimsFail)
      if ctx.faults.putStateFail then
        (.error .storePolicyFailed, s, tr ++ [.getTxTime true, ev1, .putState policyID false])
      else
        (.ok (), putPolicy s1 policyID updated,
          tr ++ [.getTxTime true, ev1, .putState policyID true])

end Draft

namespace HealthIns

/-- True of a GetState stub call. -/
def Ev.isGetState : Ev → Bool
  | .getState _ => true
  | _ => false

/-- True of a write to the access-log-collection, successful or not. -/
def auditPut : Ev → Bool
  | .putPriv c _ _ => c = "access-log-collection"
  | _ => false

/-- True of a successful write to the access-log-collection. -/
def grantedAuditPut : Ev → Bool
  | .putPriv c _ ok => c = "access-log-collection" && ok
  | _ => false

/-- True of a read of the medical-conditions-collection. -/
def sensitiveRead : Ev → Bool
  | .getPriv c _ => c = "medical-conditions-collection"
  | _ => false

/-- Scans a trace and checks that every read of the sensitive collection is
preceded by a successful access-log-collection write; seen records whether
such a write has already occurred. -/
def auditFirst (seen : Bool) : List Ev → Bool
  | [] => true
  | e :: es =>
    if sensitiveRead e then seen && auditFirst seen es
    else auditFirst (seen || grantedAuditPut e) es

/-- The financial invariant of the design: every stored policy has
claimedTotal at most sumAssured. -/
def coverageInv (s : Ledger) : Prop :=
  ∀ k p, s.publicNS k = some p → p.claimedTotal ≤ p.sumAssured

/-- Demo identity: the patient alice, no identity faults. -/
def aliceId : ClientId :=
  { id := "alice", roleAttr := some "patient", roleAttrErr := false, idErr := false }

/-- Demo context for alice with all stub calls succeeding. -/
def ctxAlice : Ctx := { ident := aliceId, faults := Faults.clear, txTime := 1111 }

/-- Demo context for a doctor with all stub calls succeeding. -/
def ctxDoctor : Ctx :=
  { ident := { id := "drbob", roleAttr := some "doctor", roleAttrErr := false, idErr := false }
    faults := Faults.clear
    txTime := 2222 }

/-- The ledger after creating policy P1 with sumAssured 10000, owner alice
and medicalConditions text flu. -/
def sCreated : Ledger :=
  (CreatePolicy ctxAlice emptyLedger "P1" 10000 "alice" "1990-01-01" "F"
    "2024-01-01" "2025-01-01" 10 "cov" "ben" "exc" "flu").2.1

/-- The ledger after a successful claim of 6000 against P1. -/
def sClaimed : Ledger :=
  (SubmitClaim ctxAlice sCreated "P1" 6000 "surgery" "CityHospital" "d1" "d2"
    "d3" "docs").2.1

/-- The public record stored for P1 right after creation. -/
def polFlu : Policy :=
  { objectType := "policy"
    policyID := "P1"
    sumAssured := 10000
    personName := "alice"
    dateOfBirth := "1990-01-01"
    gender := "F"
    startDate := "2024-01-01"
    endDate := "2025-01-01"
    coPay := 10
    coverages := "cov"
    benefits := "ben"
    exclusions := "exc"
    claimedTotal := 0
    medicalCondition := "flu" }

/-- The same record with the other medicalConditions text. -/
def polCanc : Policy := { polFlu with medicalCondition := "cancer" }

/-- The public record stored for P1 after the 6000 claim. -/
def polP1after : Policy := { polFlu with claimedTotal := 6000 }

/-- The ledger created exactly as sCreated except for the medicalConditions
argument. -/
def sCanc : Ledger :=
  (CreatePolicy ctxAlice emptyLedger "P1" 10000 "alice" "1990-01-01" "F"
    "2024-01-01" "2025-01-01" 10 "cov" "ben" "exc" "cancer").2.1

/-- sCreated with the sensitive collection erased; used to show GetPolicy
ignores the sensitive collection. -/
def sCreatedNoMed : Ledger := { sCreated with medicalNS := fun _ => none }

/-- A patient context whose identity does not own P1. -/
def ctxMallory : Ctx :=
  { ident := { id := "mallory", roleAttr := some "patient", roleAttrErr := false, idErr := false }
    faults := Faults.clear
    txTime := 3333 }

/-- A context whose identity carries no role attribute. -/
def ctxNoRole : Ctx :=
  { ident := { id := "eve", roleAttr := none, roleAttrErr := false, idErr := false }
    faults := Faults.clear
    txTime := 4444 }

/-- A context whose role attribute is neither doctor nor patient. -/
def ctxAuditor : Ctx :=
  { ident := { id := "audrey", roleAttr := some "auditor", roleAttrErr := false, idErr := false }
    faults := Faults.clear
    txTime := 5555 }

/-- The doctor context with the access-log-collection write failing. -/
def ctxDoctorLogFail : Ctx :=
  { ctxDoctor with faults := { Faults.clear with putAccessLogFail := true } }

/-- The alice context with the claims-collection write failing. -/
def ctxAliceClaimPutFail : Ctx :=
  { ctxAlice with faults := { Faults.clear with putClaimsFail := true } }

/-- A ledger holding a sensitive record for P9 and nothing else: the public
namespace is empty. -/
def sOnlyMedical : Ledger :=
  { emptyLedger with medicalNS := fun k => if k = "P9" then some "asthma" else none }

end HealthIns

open HealthIns

namespace HealthIns

/-- Helper: a successful GetPolicy means the policy is stored in the public
namespace under the requested key. -/
theorem getPolicy_ok {ctx : Ctx} {s : Ledger} {pid : String} {p : Policy} {tr : List Ev}
    (h : GetPolicy ctx s pid = (.ok p, tr)) : s.publicNS pid = some p := by
  unfold GetPolicy at h
  split at h
  · simp at h
  · split at h
    · simp at h
    · rename_i q hq
      simp only [Prod.mk.injEq] at h
      cases h.1
      exact hq

end HealthIns

/-- Claim C3: when the stored claimedTotal plus the requested claimAmount
exceeds sumAssured, SubmitClaim fails with the coverage error and the
invocation performs no writes at all: the returned ledger is the input
ledger and the trace holds only the policy read. -/
theorem submitClaim_overflow_rejected (ctx : Ctx) (s : Ledger) (pid : String)
    (amt : Int) (r h d1 d2 d3 doc : String) (p : Policy)
    (hfault : ctx.faults.getStateFail = false)
    (hp : s.publicNS pid = some p)
    (hover : p.sumAssured < p.claimedTotal + amt) :
    SubmitClaim ctx s pid amt r h d1 d2 d3 doc
      = (.error .claimExceedsSumAssured, s, [.getState pid]) := by
  unfold SubmitClaim GetPolicy
  simp [hfault, hp, hover]

/-- Witness for C3, the worked example of the design: after the 6000 claim
against the 10000 policy, a further 5000 claim is rejected and the ledger is
untouched. -/
theorem submitClaim_overflow_rejected_witness :
    SubmitClaim ctxAlice sClaimed "P1" 5000 "r" "h" "d1" "d2" "d3" "doc"
      = (.error .claimExceedsSumAssured, sClaimed, [.getState "P1"]) :=
  submitClaim_overflow_rejected ctxAlice sClaimed "P1" 5000 "r" "h" "d1" "d2" "d3" "doc"
    polP1after rfl rfl (by decide)

/-- Claim C5: a caller with role patient whose identity differs from the
policy personName is rejected by GetMedicalConditions with the ownership
error; the returned ledger is the input ledger and the trace holds only the
public policy read, so no sensitive data is read and no audit entry is
written. -/
theorem patient_nonowner_denied_without_side_effects (ctx : Ctx) (s : Ledger)
    (pid : String) (p : Policy)
    (hre : ctx.ident.roleAttrErr = false)
    (hrole : ctx.ident.roleAttr = some "patient")
    (hid : ctx.ident.idErr = false)
    (hgs : ctx.faults.getStateFail = false)
    (hp : s.publicNS pid = some p)
    (hown : p.personName ≠ ctx.ident.id) :
    GetMedicalConditions ctx s pid = (.error .notPolicyOwner, s, [.getState pid]) := by
  unfold GetMedicalConditions GetPolicy
  simp [hre, hrole, hid, hgs, hp, hown]

/-- Witness for C5: the patient mallory cannot read the medical data of the
policy owned by alice, and the invocation leaves no trace but the policy
read. -/
theorem patient_nonowner_denied_without_side_effects_witness :
    GetMedicalConditions ctxMallory sCreated "P1"
      = (.error .notPolicyOwner, sCreated, [.getState "P1"]) :=
  patient_nonowner_denied_without_side_effects ctxMallory sCreated "P1" polFlu
    rfl rfl rfl rfl rfl (by decide)

/-- Claim C8: GetMedicalConditions distinguishes its two pre-authorization
failures and raises them before touching the store: a missing role attribute
gives the attribute-missing error and a recognized-neither-doctor-nor-patient
role gives the unauthorized error, both with an empty trace and an unchanged
ledger. -/
theorem role_precheck_failures :
    (∀ ctx s pid, ctx.ident.roleAttrErr = false → ctx.ident.roleAttr = none →
      GetMedicalConditions ctx s pid = (.error .roleAttrNotFound, s, [])) ∧
    (∀ ctx s pid role, ctx.ident.roleAttrErr = false →
      ctx.ident.roleAttr = some role → role ≠ "doctor" → role ≠ "patient" →
      GetMedicalConditions ctx s pid = (.error .unauthorizedRole, s, [])) := by
  constructor
  · intro ctx s pid h1 h2
    unfold GetMedicalConditions
    simp [h1, h2]
  · intro ctx s pid role h1 h2 h3 h4
    unfold GetMedicalConditions
    simp [h1, h2, h3, h4]

/-- Witness for C8: a caller without a role attribute and a caller with the
role auditor are both rejected before any store access. -/
theorem role_precheck_failures_witness :
    GetMedicalConditions ctxNoRole sCreated "P1"
      = (.error .roleAttrNotFound, sCreated, []) ∧
    GetMedicalConditions ctxAuditor sCreated "P1"
      = (.error .unauthorizedRole, sCreated, []) :=
  ⟨role_precheck_failures.1 ctxNoRole sCreated "P1" rfl rfl,
   role_precheck_failures.2 ctxAuditor sCreated "P1" "auditor" rfl rfl
     (by decide) (by decide)⟩

/-- Claim C1 counterexample: after a committed claim of 6000 against the
10000 policy, UpdatePolicy commits a rewrite of sumAssured down to 1000
while claimedTotal stays 6000, so the stored state violates
claimedTotal at most sumAssured: UpdatePolicy does not preserve the
invariant. -/
theorem updatePolicy_breaks_coverage_invariant :
    (SubmitClaim ctxAlice sCreated "P1" 6000 "surgery" "CityHospital" "d1" "d2"
      "d3" "docs").1 = .ok () ∧
    (UpdatePolicy ctxAlice sClaimed "P1" 1000 "alice" "1990-01-01" "F"
      "2024-01-01" "2025-01-01" 10 "cov" "ben" "exc").1 = .ok () ∧
    ((UpdatePolicy ctxAlice sClaimed "P1" 1000 "alice" "1990-01-01" "F"
      "2024-01-01" "2025-01-01" 10 "cov" "ben" "exc").2.1.publicNS "P1").map
        (fun p => (p.claimedTotal, p.sumAssured)) = some (6000, 1000) ∧
    ¬ coverageInv (UpdatePolicy ctxAlice sClaimed "P1" 1000 "alice" "1990-01-01" "F"
      "2024-01-01" "2025-01-01" 10 "cov" "ben" "exc").2.1 := by
  refine ⟨rfl, rfl, rfl, fun hinv => ?_⟩
  have h := hinv "P1" { polP1after with sumAssured := 1000 } rfl
  revert h
  decide

/-- Claim C2 counterexample: the two ledgers built by CreatePolicy with the
medicalConditions texts flu and cancer agree everywhere except in the data
derived from medicalConditions (their public records are equal once that
field is blanked, and every other namespace is equal), yet GetPolicy returns
different results to the same caller, because CreatePolicy embeds the
sensitive text in the public Policy record. -/
theorem getPolicy_discloses_medicalConditions :
    ({ polFlu with medicalCondition := "" } = { polCanc with medicalCondition := "" }) ∧
    sCreated.publicNS = (fun k => if k = "P1" then some polFlu else none) ∧
    sCanc.publicNS = (fun k => if k = "P1" then some polCanc else none) ∧
    sCreated.medicalNS "P1" = some "flu" ∧
    sCanc.medicalNS "P1" = some "cancer" ∧
    sCreated.claimsNS = sCanc.claimsNS ∧
    sCreated.accessLogNS = sCanc.accessLogNS ∧
    sCreated.accessLogsNS = sCanc.accessLogsNS ∧
    (GetPolicy ctxDoctor sCreated "P1").1 = .ok polFlu ∧
    (GetPolicy ctxDoctor sCanc "P1").1 = .ok polCanc ∧
    (GetPolicy ctxDoctor sCreated "P1").1 ≠ (GetPolicy ctxDoctor sCanc "P1").1 := by
  refine ⟨rfl, rfl, rfl, rfl, rfl, rfl, rfl, rfl, rfl, rfl, ?_⟩
  intro h
  rw [show (GetPolicy ctxDoctor sCreated "P1").1 = Except.ok polFlu from rfl,
      show (GetPolicy ctxDoctor sCanc "P1").1 = Except.ok polCanc from rfl] at h
  exact absurd (Except.ok.inj h) (by decide)

/-- Claim C7 counterexample: SubmitClaim accepts a negative claimAmount, so
the committed claimedTotal drops from 0 to -10, below zero: claimedTotal is
neither monotonically non-decreasing nor kept non-negative. -/
theorem negative_claim_decreases_claimedTotal :
    (SubmitClaim ctxAlice sCreated "P1" (-10) "r" "h" "d1" "d2" "d3" "doc").1 = .ok () ∧
    ((SubmitClaim ctxAlice sCreated "P1" (-10) "r" "h" "d1" "d2" "d3" "doc").2.1.publicNS
       "P1").map Policy.claimedTotal = some (-10) ∧
    ¬ ((0 : Int) ≤ -10) :=
  ⟨rfl, rfl, by decide⟩

/-- Claim C4: in the main.go draft of SubmitClaim the error of the
claims-collection write is assigned but never checked, so when that write
fails the invocation still commits the updated claimedTotal (40) with no
claim record and reports success; the buildable chaincode variant instead
returns the store error and commits nothing. -/
theorem draft_submitClaim_swallows_claim_write_failure :
    (Draft.SubmitClaim ctxAliceClaimPutFail sCreated "P1" 40 "r" "h" "d1" "d2" "d3"
      "doc").1 = .ok () ∧
    ((Draft.SubmitClaim ctxAliceClaimPutFail sCreated "P1" 40 "r" "h" "d1" "d2" "d3"
      "doc").2.1.publicNS "P1").map Policy.claimedTotal = some 40 ∧
    (Draft.SubmitClaim ctxAliceClaimPutFail sCreated "P1" 40 "r" "h" "d1" "d2" "d3"
      "doc").2.1.claimsNS "P1" = none ∧
    HealthIns.SubmitClaim ctxAliceClaimPutFail sCreated "P1" 40 "r" "h" "d1" "d2" "d3" "doc"
      = (.error .storeClaimFailed, sCreated,
         [.getState "P1", .getTxTime true, .putPriv "claims-collection" "P1" false]) :=
  ⟨rfl, rfl, rfl, rfl⟩

/-- Claim C1 amended: the coverage invariant holds in every state reached by
CreatePolicy with non-negative sumAssured and by SubmitClaim, and UpdatePolicy
preserves it exactly when the new sumAssured is at least the stored
claimedTotal; SubmitClaim enforces it by rejecting overflowing claims. -/
theorem coverage_invariant_preservation :
    (∀ ctx s pid sa pn dob g sd ed cp cov ben exc mc, 0 ≤ sa → coverageInv s →
      coverageInv (CreatePolicy ctx s pid sa pn dob g sd ed cp cov ben exc mc).2.1) ∧
    (∀ ctx s pid amt r h d1 d2 d3 doc, coverageInv s →
      coverageInv (SubmitClaim ctx s pid amt r h d1 d2 d3 doc).2.1) ∧
    (∀ ctx s pid sa pn dob g sd ed cp cov ben exc, coverageInv s →
      (∀ p, s.publicNS pid = some p → p.claimedTotal ≤ sa) →
      coverageInv (UpdatePolicy ctx s pid sa pn dob g sd ed cp cov ben exc).2.1) := by
  refine ⟨?_, ?_, ?_⟩
  · intro ctx s pid sa pn dob g sd ed cp cov ben exc mc hsa hinv
    simp only [CreatePolicy]
    split
    · exact hinv
    · split
      · exact hinv
      · intro k p hk
        simp only [putMedical, putPolicy] at hk
        split at hk
        · cases Option.some.inj hk
          exact hsa
        · exact hinv k p hk
  · intro ctx s pid amt r h d1 d2 d3 doc hinv
    simp only [SubmitClaim]
    split
    · exact hinv
    · rename_i policy tr heq
      split
      · exact hinv
      · rename_i hle
        split
        · exact hinv
        · split
          · exact hinv
          · split
            · exact hinv
            · intro k p hk
              simp only [putPolicy, putClaim] at hk
              split at hk
              · cases Option.some.inj hk
                simpa using le_of_not_lt hle
              · exact hinv k p hk
  · intro ctx s pid sa pn dob g sd ed cp cov ben exc hinv hbound
    simp only [UpdatePolicy]
    split
    · exact hinv
    · rename_i policy tr heq
      split
      · exact hinv
      · intro k p hk
        simp only [putPolicy] at hk
        split at hk
        · cases Option.some.inj hk
          exact hbound policy (getPolicy_ok heq)
        · exact hinv k p hk

/-- Witness for the amended C1: the invariant holds in the demo ledger after
creation with sumAssured 10000 and the committed claim of 6000, through the
CreatePolicy and SubmitClaim preservation parts of the theorem. -/
theorem coverage_invariant_preservation_witness : coverageInv sClaimed := by
  have h0 : coverageInv emptyLedger := by
    intro k p hk
    simp [emptyLedger] at hk
  have h1 : coverageInv sCreated :=
    coverage_invariant_preservation.1 ctxAlice emptyLedger "P1" 10000 "alice"
      "1990-01-01" "F" "2024-01-01" "2025-01-01" 10 "cov" "ben" "exc" "flu"
      (by decide) h0
  exact coverage_invariant_preservation.2.1 ctxAlice sCreated "P1" 6000 "surgery"
    "CityHospital" "d1" "d2" "d3" "docs" h1

/-- Claim C2 amended: the sensitive-collection copy of medicalConditions is
invisible to GetPolicy, whose whole result (value and trace) depends only on
the public namespace and whose trace holds a single public read; the
disclosure shown in the counterexample comes from the copy CreatePolicy
embeds in the public Policy record itself. -/
theorem getPolicy_reads_only_public_namespace (ctx : Ctx) (s t : Ledger) (pid : String)
    (hpub : s.publicNS = t.publicNS) :
    GetPolicy ctx s pid = GetPolicy ctx t pid ∧
    (GetPolicy ctx s pid).2 = [.getState pid] := by
  constructor
  · unfold GetPolicy
    rw [hpub]
  · unfold GetPolicy
    split
    · rfl
    · split <;> rfl

/-- Witness for the amended C2: erasing the whole sensitive collection does
not change the result of GetPolicy on the demo ledger. -/
theorem getPolicy_reads_only_public_namespace_witness :
    GetPolicy ctxDoctor sCreated "P1" = GetPolicy ctxDoctor sCreatedNoMed "P1" ∧
    (GetPolicy ctxDoctor sCreated "P1").2 = [.getState "P1"] :=
  getPolicy_reads_only_public_namespace ctxDoctor sCreated sCreatedNoMed "P1" rfl

/-- Claim C7 amended: for non-negative claimAmounts the stored claimedTotal
never decreases under SubmitClaim and stays non-negative once non-negative,
and UpdatePolicy leaves claimedTotal exactly unchanged; the counterexample
shows the restriction to non-negative amounts is necessary. -/
theorem claimedTotal_monotone_for_nonneg_amounts :
    (∀ ctx s pid amt r h d1 d2 d3 doc, 0 ≤ amt →
      ∀ k p q, s.publicNS k = some p →
        (SubmitClaim ctx s pid amt r h d1 d2 d3 doc).2.1.publicNS k = some q →
        p.claimedTotal ≤ q.claimedTotal ∧ (0 ≤ p.claimedTotal → 0 ≤ q.claimedTotal)) ∧
    (∀ ctx s pid sa pn dob g sd ed cp cov ben exc,
      ∀ k p q, s.publicNS k = some p →
        (UpdatePolicy ctx s pid sa pn dob g sd ed cp cov ben exc).2.1.publicNS k = some q →
        q.claimedTotal = p.claimedTotal) := by
  constructor
  · intro ctx s pid amt r h d1 d2 d3 doc hamt k p q hp hq
    simp only [SubmitClaim] at hq
    split at hq
    · rw [hp] at hq
      cases Option.some.inj hq
      exact ⟨le_refl _, fun h0 => h0⟩
    · rename_i policy tr heq
      split at hq
      · rw [hp] at hq
        cases Option.some.inj hq
        exact ⟨le_refl _, fun h0 => h0⟩
      · split at hq
        · rw [hp] at hq
          cases Option.some.inj hq
          exact ⟨le_refl _, fun h0 => h0⟩
        · split at hq
          · rw [hp] at hq
            cases Option.some.inj hq
            exact ⟨le_refl _, fun h0 => h0⟩
          · split at hq
            · rw [hp] at hq
              cases Option.some.inj hq
              exact ⟨le_refl _, fun h0 => h0⟩
            · simp only [putPolicy, putClaim] at hq
              split at hq
              · rename_i hk
                subst hk
                have hpol : p = policy := by
                  have h2 := getPolicy_ok heq
                  rw [hp] at h2
                  exact Option.some.inj h2
                subst hpol
                cases Option.some.inj hq
                exact ⟨le_add_of_nonneg_right hamt, fun h0 => add_nonneg h0 hamt⟩
              · rw [hp] at hq
                cases Option.some.inj hq
                exact ⟨le_refl _, fun h0 => h0⟩
  · intro ctx s pid sa pn dob g sd ed cp cov ben exc k p q hp hq
    simp only [UpdatePolicy] at hq
    split at hq
    · rw [hp] at hq
      cases Option.some.inj hq
      rfl
    · rename_i policy tr heq
      split at hq
      · rw [hp] at hq
        cases Option.some.inj hq
        rfl
      · simp only [putPolicy] at hq
        split at hq
        · rename_i hk
          subst hk
          have hpol : p = policy := by
            have h2 := getPolicy_ok heq
            rw [hp] at h2
            exact Option.some.inj h2
          subst hpol
          cases Option.some.inj hq
          rfl
        · rw [hp] at hq
          cases Option.some.inj hq
          rfl

/-- Witness for the amended C7: the committed 6000 claim raises claimedTotal
from 0 to 6000, which does not decrease it and keeps it non-negative. -/
theorem claimedTotal_monotone_for_nonneg_amounts_witness :
    polFlu.claimedTotal ≤ polP1after.claimedTotal ∧
    (0 ≤ polFlu.claimedTotal → 0 ≤ polP1after.claimedTotal) :=
  claimedTotal_monotone_for_nonneg_amounts.1 ctxAlice sCreated "P1" 6000 "surgery"
    "CityHospital" "d1" "d2" "d3" "docs" (by decide) "P1" polFlu polP1after rfl rfl

/-- Claim C10: for a doctor the whole run of GetMedicalConditions is
determined by the sensitive record alone, with no assumption on the public
namespace: it succeeds with the stored text, writes the one granted audit
entry, and its trace holds no GetState call at all. -/
theorem doctor_read_skips_public_policy (ctx : Ctx) (s : Ledger) (pid txt : String)
    (hre : ctx.ident.roleAttrErr = false)
    (hrole : ctx.ident.roleAttr = some "doctor")
    (hid : ctx.ident.idErr = false)
    (hfaults : ctx.faults = Faults.clear)
    (hmed : s.medicalNS pid = some txt) :
    GetMedicalConditions ctx s pid
      = (.ok txt,
         putAccessLog s pid
           { userID := ctx.ident.id, role := "doctor", policyID := pid,
             timestamp := ctx.txTime, accessGranted := "true" },
         [.getTxTime true, .putPriv "access-log-collection" pid true,
          .getPriv "medical-conditions-collection" pid]) ∧
    (GetMedicalConditions ctx s pid).2.2.countP Ev.isGetState = 0 := by
  have hmain : GetMedicalConditions ctx s pid
      = (.ok txt,
         putAccessLog s pid
           { userID := ctx.ident.id, role := "doctor", policyID := pid,
             timestamp := ctx.txTime, accessGranted := "true" },
         [.getTxTime true, .putPriv "access-log-collection" pid true,
          .getPriv "medical-conditions-collection" pid]) := by
    unfold GetMedicalConditions discloseTail
    simp [hre, hrole, hid, hfaults, Faults.clear, putAccessLog, hmed]
  refine ⟨hmain, ?_⟩
  rw [hmain]
  simp [List.countP, List.countP.go, Ev.isGetState]

/-- Witness for C10: the doctor reads the sensitive record of P9 although the
public namespace is completely empty. -/
theorem doctor_read_skips_public_policy_witness :
    GetMedicalConditions ctxDoctor sOnlyMedical "P9"
      = (.ok "asthma",
         putAccessLog sOnlyMedical "P9"
           { userID := "drbob", role := "doctor", policyID := "P9",
             timestamp := 2222, accessGranted := "true" },
         [.getTxTime true, .putPriv "access-log-collection" "P9" true,
          .getPriv "medical-conditions-collection" "P9"]) ∧
    (GetMedicalConditions ctxDoctor sOnlyMedical "P9").2.2.countP Ev.isGetState = 0 :=
  doctor_read_skips_public_policy ctxDoctor sOnlyMedical "P9" "asthma"
    rfl rfl rfl rfl rfl

/-- Claim C9: an authorized caller, a doctor or the patient owning the
policy, gets exactly the stored medicalConditions text back; the trace holds
exactly one write to the access-log-collection, the stored audit entry
carries accessGranted true, and the sensitive namespace itself is not
modified. -/
theorem authorized_read_returns_text_logged_once (ctx : Ctx) (s : Ledger)
    (pid role txt : String)
    (hre : ctx.ident.roleAttrErr = false)
    (hrole : ctx.ident.roleAttr = some role)
    (hid : ctx.ident.idErr = false)
    (hfaults : ctx.faults = Faults.clear)
    (hmed : s.medicalNS pid = some txt)
    (hauth : role = "doctor" ∨
      (role = "patient" ∧ ∃ p, s.publicNS pid = some p ∧ p.personName = ctx.ident.id)) :
    (GetMedicalConditions ctx s pid).1 = .ok txt ∧
    (GetMedicalConditions ctx s pid).2.2.countP auditPut = 1 ∧
    (GetMedicalConditions ctx s pid).2.1.accessLogNS pid
      = some { userID := ctx.ident.id, role := role, policyID := pid,
               timestamp := ctx.txTime, accessGranted := "true" } ∧
    (GetMedicalConditions ctx s pid).2.1.medicalNS = s.medicalNS := by
  rcases hauth with hdoc | ⟨hpat, p, hp, hown⟩
  · subst hdoc
    unfold GetMedicalConditions discloseTail
    simp [hre, hrole, hid, hfaults, Faults.clear, putAccessLog, hmed,
      List.countP, List.countP.go, auditPut]
  · subst hpat
    unfold GetMedicalConditions discloseTail logAccessEvent GetPolicy
    simp [hre, hrole, hid, hfaults, Faults.clear, putAccessLog, putAccessEvent,
      hmed, hp, hown, List.countP, List.countP.go, auditPut]

/-- Witness for C9: alice reads her own medical data; one granted audit entry
results. -/
theorem authorized_read_returns_text_logged_once_witness :
    (GetMedicalConditions ctxAlice sCreated "P1").1 = .ok "flu" ∧
    (GetMedicalConditions ctxAlice sCreated "P1").2.2.countP auditPut = 1 ∧
    (GetMedicalConditions ctxAlice sCreated "P1").2.1.accessLogNS "P1"
      = some { userID := "alice", role := "patient", policyID := "P1",
               timestamp := 1111, accessGranted := "true" } ∧
    (GetMedicalConditions ctxAlice sCreated "P1").2.1.medicalNS = sCreated.medicalNS :=
  authorized_read_returns_text_logged_once ctxAlice sCreated "P1" "patient" "flu"
    rfl rfl rfl rfl rfl (Or.inr ⟨rfl, polFlu, rfl, rfl⟩)

/-- Helper: the trace of GetPolicy is always the single public read. -/
theorem getPolicy_trace (ctx : Ctx) (s : Ledger) (pid : String) :
    (GetPolicy ctx s pid).2 = [Ev.getState pid] := by
  unfold GetPolicy
  split
  · rfl
  · split <;> rfl

/-- Helper: the trace component of any GetPolicy result pair. -/
theorem getPolicy_snd_eq {ctx : Ctx} {s : Ledger} {pid : String}
    {r : Except Err Policy} {tr : List Ev}
    (h : GetPolicy ctx s pid = (r, tr)) : tr = [Ev.getState pid] := by
  have h2 : (GetPolicy ctx s pid).2 = tr := by rw [h]
  rw [getPolicy_trace] at h2
  exact h2.symm

/-- Helper: a trace without sensitive reads passes the audit scan from any
seen flag. -/
theorem auditFirst_of_neutral (l : List Ev)
    (h : ∀ e ∈ l, sensitiveRead e = false) :
    ∀ b, auditFirst b l = true := by
  induction l with
  | nil => intro b; rfl
  | cons e es ih =>
    intro b
    have he := h e (by simp)
    simp [auditFirst, he]
    exact ih (fun e2 hm => h e2 (by simp [hm])) _

/-- Helper: prefixing a trace that passes the scan from every seen flag with
sensitive-read-free events preserves the scan. -/
theorem auditFirst_append (l1 l2 : List Ev)
    (h1 : ∀ e ∈ l1, sensitiveRead e = false)
    (h2 : ∀ b, auditFirst b l2 = true) :
    ∀ b, auditFirst b (l1 ++ l2) = true := by
  induction l1 with
  | nil => intro b; simpa using h2 b
  | cons e es ih =>
    intro b
    have he := h1 e (by simp)
    simp [auditFirst, he]
    exact ih (fun e2 hm => h1 e2 (by simp [hm])) _

/-- Helper: logAccessEvent never reads the sensitive collection. -/
theorem logAccessEvent_no_sensitive_read (ctx : Ctx) (s : Ledger)
    (pid a u : String) :
    ∀ e ∈ (logAccessEvent ctx s pid a u).2.2, sensitiveRead e = false := by
  unfold logAccessEvent
  split
  · intro e he
    simp only [List.mem_singleton] at he
    subst he
    rfl
  · split <;> intro e he <;>
      simp only [List.mem_cons, List.not_mem_nil, or_false] at he <;>
      rcases he with rfl | rfl <;> rfl

/-- Helper: the trace component of any logAccessEvent result is free of
sensitive reads. -/
theorem logAccessEvent_snd {ctx : Ctx} {s : Ledger} {pid a u : String}
    {r : Except Err Unit} {s2 : Ledger} {tr2 : List Ev}
    (h : logAccessEvent ctx s pid a u = (r, s2, tr2)) :
    ∀ e ∈ tr2, sensitiveRead e = false := by
  have h2 := logAccessEvent_no_sensitive_read ctx s pid a u
  rw [h] at h2
  exact h2

/-- Helper: every trace produced by the disclosure tail passes the audit
scan, provided the prefix it extends has no sensitive read: every branch of
the tail either reads nothing sensitive or reads it after the successful
access-log-collection write. -/
theorem discloseTail_audit (ctx : Ctx) (s0 sCur : Ledger)
    (pid role cid : String) (tr : List Ev)
    (h : ∀ e ∈ tr, sensitiveRead e = false) :
    auditFirst false (discloseTail ctx s0 sCur pid role cid tr).2.2 = true := by
  unfold discloseTail
  split
  · exact auditFirst_append tr _ h (fun b => by cases b <;> rfl) false
  · split
    · exact auditFirst_append tr _ h (fun b => by cases b <;> rfl) false
    · split
      · exact auditFirst_append tr _ h (fun b => by cases b <;> rfl) false
      · dsimp only
        split
        · exact auditFirst_append tr _ h (fun b => by cases b <;> rfl) false
        · exact auditFirst_append tr _ h (fun b => by cases b <;> rfl) false

/-- Helper: with the access-log-collection write failing, the disclosure
tail returns no data and commits nothing. -/
theorem discloseTail_fail_log (ctx : Ctx) (s0 sCur : Ledger)
    (pid role cid txt : String) (tr : List Ev)
    (hfail : ctx.faults.putAccessLogFail = true) :
    (discloseTail ctx s0 sCur pid role cid tr).1 ≠ Except.ok txt ∧
    (discloseTail ctx s0 sCur pid role cid tr).2.1 = s0 := by
  unfold discloseTail
  split
  · exact ⟨by simp, rfl⟩
  · simp [hfail]

/-- Claim C6: in every execution of GetMedicalConditions the sensitive
collection is read only after a successful access-log-collection write
(first part, over every context, ledger and fault schedule); whenever the
audit write fails the call returns no sensitive data and commits nothing
(second part); and on the doctor path the failed audit write aborts the call
with the persistence error before any sensitive read (third part). -/
theorem audit_before_disclosure :
    (∀ ctx s pid, auditFirst false (GetMedicalConditions ctx s pid).2.2 = true) ∧
    (∀ ctx s pid txt, ctx.faults.putAccessLogFail = true →
      (GetMedicalConditions ctx s pid).1 ≠ .ok txt ∧
      (GetMedicalConditions ctx s pid).2.1 = s) ∧
    (∀ ctx s pid, ctx.ident.roleAttrErr = false → ctx.ident.roleAttr = some "doctor" →
      ctx.ident.idErr = false → ctx.faults.txTimeFail = false →
      ctx.faults.putAccessLogFail = true →
      GetMedicalConditions ctx s pid
        = (.error .storeAccessLogFailed, s,
           [.getTxTime true, .putPriv "access-log-collection" pid false])) := by
  refine ⟨?_, ?_, ?_⟩
  · intro ctx s pid
    unfold GetMedicalConditions
    split
    · rfl
    · split
      · rfl
      · split
        · rfl
        · split
          · rfl
          · split
            · split
              · rename_i e tr heq
                rw [getPolicy_snd_eq heq]
                rfl
              · rename_i policy tr heq
                dsimp only
                split
                · rw [getPolicy_snd_eq heq]
                  rfl
                · split
                  · rename_i r s2 tr2 heq2
                    have h1 : ∀ e ∈ tr, sensitiveRead e = false := by
                      rw [getPolicy_snd_eq heq]
                      intro e he
                      simp only [List.mem_singleton] at he
                      subst he
                      rfl
                    have h2 := logAccessEvent_snd heq2
                    exact auditFirst_append tr tr2 h1 (auditFirst_of_neutral tr2 h2) false
                  · rename_i r s1 tr2 heq2
                    have h1 : ∀ e ∈ tr, sensitiveRead e = false := by
                      rw [getPolicy_snd_eq heq]
                      intro e he
                      simp only [List.mem_singleton] at he
                      subst he
                      rfl
                    have h2 := logAccessEvent_snd heq2
                    have hall : ∀ e ∈ tr ++ tr2, sensitiveRead e = false := by
                      intro e he
                      rcases List.mem_append.mp he with hm | hm
                      · exact h1 e hm
                      · exact h2 e hm
                    exact discloseTail_audit ctx s s1 pid _ _ (tr ++ tr2) hall
            · exact discloseTail_audit ctx s s pid _ _ []
                (by intro e he; simp at he)
  · intro ctx s pid txt hfail
    unfold GetMedicalConditions
    split
    · exact ⟨by simp, rfl⟩
    · split
      · exact ⟨by simp, rfl⟩
      · split
        · exact ⟨by simp, rfl⟩
        · split
          · exact ⟨by simp, rfl⟩
          · split
            · split
              · exact ⟨by simp, rfl⟩
              · dsimp only
                split
                · exact ⟨by simp, rfl⟩
                · split
                  · exact ⟨by simp, rfl⟩
                  · rename_i r s1 tr2 heq2
                    exact discloseTail_fail_log ctx s s1 pid _ _ txt _ hfail
            · exact discloseTail_fail_log ctx s s pid _ _ txt [] hfail
  · intro ctx s pid hre hrole hid htx hfail
    unfold GetMedicalConditions discloseTail
    simp [hre, hrole, hid, htx, hfail]

/-- Witness for C6: the doctor read on the demo ledger satisfies the scan,
and with the audit write failing the same read aborts with the persistence
error, before any sensitive access. -/
theorem audit_before_disclosure_witness :
    auditFirst false (GetMedicalConditions ctxDoctor sCreated "P1").2.2 = true ∧
    GetMedicalConditions ctxDoctorLogFail sCreated "P1"
      = (.error .storeAccessLogFailed, sCreated,
         [.getTxTime true, .putPriv "access-log-collection" "P1" false]) :=
  ⟨audit_before_disclosure.1 ctxDoctor sCreated "P1",
   audit_before_disclosure.2.2 ctxDoctorLogFail sCreated "P1" rfl rfl rfl rfl rfl⟩
